import Mathlib

/-!
Shallow embedding of the `entity_tz` Home Assistant custom integration
(`custom_components/entity_tz/`), covering the parts the verified claims
are about: the time-zone derivation `get_tz` and its process-wide lru
cache (`helpers.py`), the location derivation `get_loc` and the
rate-limited Nominatim client `get_location` (`__init__.py`,
`nominatim.py`), the zone-set cache `update_zones` and the helper
`not_ha_tz` (`helpers.py`), the entry controller `update_from_entity`
and entry setup/unload (`__init__.py`), and the per-entry consumer
counters touched by `ETZEntity.async_added_to_hass` /
`async_will_remove_from_hass` (`helpers.py`).

Python floats that hold coordinates are modelled as rationals; machine
issues of binary floating point play no role in any claim considered.
Time-zone objects (`tzinfo`) are modelled by the data the code actually
consumes at the current instant: a name and the offset (in minutes) the
zone assigns to the current instant, since every comparison the code
performs (`not_ha_tz`, the diff sensors) evaluates wall clocks at a
single instant `dt_util.now()`.
-/

namespace EntityTZ

/-- `homeassistant.components.person.DOMAIN`. -/
def PERSON_DOMAIN : String := "person"

/-- `homeassistant.components.device_tracker.DOMAIN`. -/
def DT_DOMAIN : String := "device_tracker"

/-- `homeassistant.components.zone.DOMAIN`. -/
def ZONE_DOMAIN : String := "zone"

/-- `homeassistant.const.STATE_HOME`. -/
def STATE_HOME : String := "home"

/-- `homeassistant.const.ATTR_LATITUDE`. -/
def ATTR_LATITUDE : String := "latitude"

/-- `homeassistant.const.ATTR_LONGITUDE`. -/
def ATTR_LONGITUDE : String := "longitude"

/-- A time-zone object (`tzinfo`), reduced to what the code consumes: its
name and the offset in minutes it assigns to the current instant. -/
structure TZInfo where
  name : String
  offsetMin : ℤ
deriving DecidableEq, Repr

/-- A reverse-geocoding result (`geopy.location.Location`), reduced to the
fields the derived sensors read. -/
structure Location where
  address : String
  countryCode : String
deriving DecidableEq, Repr

/-- The tri-state result shape used throughout the integration:
a Python value of type `T | str | None` where the only string ever
stored is `STATE_UNAVAILABLE`.  `unavailable` models the string
`STATE_UNAVAILABLE`, `noResult` models Python `None`, and `value`
models a real `T`. -/
inductive Tri (α : Type) where
  | unavailable
  | noResult
  | value (a : α)
deriving DecidableEq, Repr

/-- Conversion of a Python `T | None` into the tri-state shape. -/
def triOfOpt {α : Type} : Option α → Tri α
  | Option.none => Tri.noResult
  | Option.some a => Tri.value a

/-- A host entity state (`homeassistant.core.State`), modelled abstractly
as the spec's §9 suggests: identifier, domain, state string, and the
attribute map restricted to the numeric attributes the code reads
(latitude/longitude), as an association list. -/
structure EState where
  entity_id : String
  domain : String
  state : String
  attributes : List (String × ℚ)
deriving DecidableEq, Repr

/-- `state.attributes.get(key)`: first binding of `key`, if any. -/
def attrGet (s : EState) (key : String) : Option ℚ :=
  s.attributes.lookup key

/-- Host configuration visible to the integration: the configured default
time zone (`dt_util.DEFAULT_TIME_ZONE` / `get_default_time_zone()`). -/
structure HAConfig where
  defaultTz : TZInfo
deriving DecidableEq, Repr

/-- The offline time-zone index (`TimezoneFinder.timezone_at`) together
with `dt_util.get_time_zone`; both are read-only lookups, so they are
modelled as functions.  An exception raised by `timezone_at` is caught by
the code and treated exactly like a `None` return, so the model folds it
into `none`. -/
structure TzIndex where
  timezone_at : ℚ → ℚ → Option String
  get_time_zone : String → Option TZInfo

/-- Round-half-to-even to an integer, as Python's builtin `round` does. -/
def roundHalfEven (q : ℚ) : ℤ :=
  let f : ℤ := ⌊q⌋
  let frac : ℚ := q - f
  if frac < 1/2 then f
  else if 1/2 < frac then f + 1
  else if f % 2 = 0 then f else f + 1

/-- Python `round(x, 4)` (also the rounding performed by the format
string `f"{x:.4f}"`): round-half-even at four decimal digits. -/
def round4 (q : ℚ) : ℚ :=
  (roundHalfEven (q * 10000) : ℚ) / 10000

/-- `helpers._get_tz_from_loc` stripped of its lru cache: query the index
at the given coordinates and resolve the returned zone name.  Exceptions
from the underlying library are caught and yield `none`, which the model
folds into the index function. -/
def _get_tz_from_loc (idx : TzIndex) (lat lng : ℚ) : Option TZInfo :=
  match idx.timezone_at lat lng with
  | Option.none => Option.none
  | Option.some tz_name => idx.get_time_zone tz_name

/-- `helpers.get_tz`: derive the tri-state time zone from an entity
state.  A missing state is unavailable; a person/device_tracker that is
home gets the host's default zone; otherwise the coordinates are read
from the attributes (missing → unavailable) and the rounded pair is
looked up in the index.  The lru cache wrapped around
`_get_tz_from_loc` is value-transparent (it memoises and replays the
very value the uncached function returns), so `get_tz` is defined with
the uncached lookup; the cache layer itself is modelled separately by
`cachedTzLookup` below. -/
def get_tz (cfg : HAConfig) (idx : TzIndex) (state : Option EState) :
    Tri TZInfo :=
  match state with
  | Option.none => Tri.unavailable
  | Option.some st =>
    if (st.domain = PERSON_DOMAIN ∨ st.domain = DT_DOMAIN) ∧ st.state = STATE_HOME
    then Tri.value cfg.defaultTz
    else
      match attrGet st ATTR_LATITUDE, attrGet st ATTR_LONGITUDE with
      | Option.some lat, Option.some lng =>
          triOfOpt (_get_tz_from_loc idx (round4 lat) (round4 lng))
      | _, _ => Tri.unavailable

/-- The reverse geocoder as a value-level map from the rounded coordinate
pair to the result `get_location` eventually produces (`some` a location,
or `none` on lookup failure).  The serialization, waiting and retry
behaviour of `nominatim.get_location` is modelled separately below. -/
def Geocoder : Type := ℚ → ℚ → Option Location

/-- `__init__.get_loc`: derive the tri-state location from an entity
state.  A missing state or missing coordinate attributes are
unavailable; otherwise the geocoder is invoked on the coordinates
rounded to four decimals (the `f"{lat:.4f}, {lng:.4f}"` cache key). -/
def get_loc (geo : Geocoder) (state : Option EState) : Tri Location :=
  match state with
  | Option.none => Tri.unavailable
  | Option.some st =>
    match attrGet st ATTR_LATITUDE, attrGet st ATTR_LONGITUDE with
    | Option.some lat, Option.some lng => triOfOpt (geo (round4 lat) (round4 lng))
    | _, _ => Tri.unavailable

/-! ### The lru cache around `_get_tz_from_loc` (`@lru_cache`, helpers.py)

The bare `@lru_cache` decorator leaves `maxsize` at its default of 128:
the process-wide cache is a *bounded* LRU cache.  It is modelled as an
association list ordered by recency (head = most recently used): a hit
moves the entry to the front, a miss computes the value, inserts it at
the front and, when the bound is exceeded, evicts the least recently
used entry at the back.  Each call also reports whether the underlying
index was actually queried. -/

/-- `functools.lru_cache`'s default `maxsize`. -/
def LRU_MAXSIZE : ℕ := 128

/-- The process-wide cache state of `_get_tz_from_loc`: rounded
coordinate pair ↦ memoised result, most recently used first. -/
abbrev TzCache : Type := List ((ℚ × ℚ) × Option TZInfo)

/-- The cache's key lookup (the dictionary probe inside `lru_cache`). -/
def tzCacheFind (cache : TzCache) (k : ℚ × ℚ) : Option (Option TZInfo) :=
  match cache with
  | [] => Option.none
  | (key, r) :: rest => if k = key then Option.some r else tzCacheFind rest k

/-- Remove the (first) binding of a key, used when a hit moves the
entry to the most-recently-used position. -/
def removeKey (cache : TzCache) (k : ℚ × ℚ) : TzCache :=
  match cache with
  | [] => []
  | (key, r) :: rest => if k = key then rest else (key, r) :: removeKey rest k

/-- One call through the lru cache wrapped around `_get_tz_from_loc`:
returns the result, the cache afterwards, and whether the underlying
index was queried (`true` = cache miss).  A hit moves the entry to the
front; a miss inserts the computed value at the front and evicts the
least recently used entry when the `maxsize` bound of 128 is exceeded. -/
def cachedTzLookup (idx : TzIndex) (cache : TzCache) (lat lng : ℚ) :
    Option TZInfo × TzCache × Bool :=
  match tzCacheFind cache (lat, lng) with
  | Option.some r => (r, ((lat, lng), r) :: removeKey cache (lat, lng), false)
  | Option.none =>
      let r := _get_tz_from_loc idx lat lng
      let grown : TzCache := ((lat, lng), r) :: cache
      (r, if grown.length > LRU_MAXSIZE then grown.dropLast else grown, true)

/-- A run of lru-cached lookups starting from a given cache state. -/
def runTzLookups (idx : TzIndex) (cache : TzCache) :
    List (ℚ × ℚ) → TzCache
  | [] => cache
  | (lat, lng) :: rest =>
      runTzLookups idx (cachedTzLookup idx cache lat lng).2.1 rest

/-- Cache-correctness invariant: every memoised entry is what the
uncached function returns on its key. -/
def TzCacheOk (idx : TzIndex) (cache : TzCache) : Prop :=
  ∀ k r, tzCacheFind cache k = Option.some r → r = _get_tz_from_loc idx k.1 k.2

/-- The keys currently cached, most recently used first. -/
def keysOf (cache : TzCache) : List (ℚ × ℚ) :=
  cache.map Prod.fst

/-! ### Nominatim client (`nominatim.get_location`)

The network is modelled as the trace of responses the server returns to
the successive requests of one top-level `get_location` call.
`GeocoderRateLimited` carries an optional `retry_after`; Python's
truthiness test `if retry_after := ...` treats both `None` and `0` as
absent.

The serialization lock matters here.  A call first awaits
`nom_data.lock.acquire()`; the only release of that lock is performed
by `limit_rate`, which is scheduled as a background task in the call's
`finally` clause — i.e. only once the call itself returns.  The
`GeocoderRateLimited` handler executes `return await get_location(...)`
*inside* the `except` block, before the `finally` runs: the recursive
call therefore awaits the same non-reentrant `asyncio.Lock` while it is
still held by its own caller, whose release can only be scheduled after
the recursive call returns.  That await can never be resumed, so a
rate-limited response deadlocks the call.  The model tracks whether the
lock is held by an ancestor frame of the current call (`lockHeld`); a
top-level call starts with the lock obtainable (`lockHeld = false`). -/

/-- One server response to a `nominatim.reverse` request. -/
inductive NomResponse where
  | ok (loc : Location)
  | rateLimited (retry_after : Option ℚ)
  | geopyError
deriving DecidableEq, Repr

/-- The wait-interval update performed by the `GeocoderRateLimited`
handler in `nominatim.get_location`: `if retry_after := exc.retry_after:`
(falsy `None`/`0` → no change) `if retry_after > nom_data.wait:
nom_data.wait = retry_after`. -/
def updateWait (wait : ℚ) (retry_after : Option ℚ) : ℚ :=
  match retry_after with
  | Option.none => wait
  | Option.some t => if t ≠ 0 then (if wait < t then t else wait) else wait

/-- The fate of one `get_location` call: it returns a value (scheduling
the lock release on its way out), it deadlocks awaiting a lock whose
release can never be scheduled, or its request is still in flight (the
response trace is exhausted).  Each fate records the shared wait
interval at that point. -/
inductive CallOutcome where
  | returns (res : Option Location) (wait : ℚ)
  | deadlocked (wait : ℚ)
  | pending (wait : ℚ)
deriving DecidableEq, Repr

/-- The shared wait interval recorded in a call outcome. -/
def CallOutcome.wait : CallOutcome → ℚ
  | CallOutcome.returns _ w => w
  | CallOutcome.deadlocked w => w
  | CallOutcome.pending w => w

/-- `nominatim.get_location`, run against a trace of server responses.
`lockHeld` says whether the serialization lock is held by an ancestor
frame of this call; in that case `await nom_data.lock.acquire()` blocks
forever, because the holder's releasing `limit_rate` task is scheduled
only in its `finally` clause, after this very call returns.  Otherwise
the call acquires the lock and issues the request: a success returns
the location, a geopy error returns `none` (both scheduling the
release), and a rate-limited response updates the shared wait interval
and re-enters `get_location` recursively from the `except` block — with
the lock still held by this frame, whose `finally` has not yet run. -/
def get_location (lockHeld : Bool) (wait : ℚ) : List NomResponse → CallOutcome
  | [] =>
      if lockHeld then CallOutcome.deadlocked wait else CallOutcome.pending wait
  | r :: rest =>
      if lockHeld then CallOutcome.deadlocked wait
      else
        match r with
        | NomResponse.ok loc => CallOutcome.returns (Option.some loc) wait
        | NomResponse.geopyError => CallOutcome.returns Option.none wait
        | NomResponse.rateLimited ra =>
            get_location true (updateWait wait ra) rest

/-- `nominatim.INITIAL_WAIT`. -/
def INITIAL_WAIT : ℚ := 3/2

/-! ### Zone-set cache (`helpers.update_zones`, `helpers.not_ha_tz`) -/

/-- `helpers.not_ha_tz`: a non-`tzinfo` value (the `STATE_UNAVAILABLE`
string or `None`) is never "different"; a real zone is different exactly
when its wall clock at the current instant differs from HA's, i.e. when
the offsets it and HA's default zone assign to the current instant
differ. -/
def not_ha_tz (haTz : TZInfo) : Tri TZInfo → Bool
  | Tri.value tz => decide (tz.offsetMin ≠ haTz.offsetMin)
  | _ => false

/-- `helpers.update_zones`: on an event that carries no data the zone
list is left untouched; otherwise it is recomputed in full as the
identifiers of the zone-domain states whose derived time zone is
effectively different from HA's.  `event? = none` models being called
directly (startup); `some hasData` models an event whose `data` mapping
is nonempty iff `hasData`. -/
def update_zones (cfg : HAConfig) (idx : TzIndex) (states : List EState)
    (zones : List String) (event? : Option Bool) : List String :=
  match event? with
  | Option.some false => zones
  | _ =>
      ((states.filter (fun st => st.domain = ZONE_DOMAIN)).filter
        (fun st => not_ha_tz cfg.defaultTz (get_tz cfg idx (Option.some st)))).map
        EState.entity_id

/-! ### Entry controller (`__init__.update_from_entity`) -/

/-- The recompute/broadcast condition of `update_from_entity` when a
state-change notification (an event with old and new state) arrives:
either state missing, or a presence-domain home flip, or a latitude or
longitude attribute difference. -/
def update_condition (new_state old_state : Option EState) : Bool :=
  match new_state, old_state with
  | Option.none, _ => true
  | _, Option.none => true
  | Option.some n, Option.some o =>
      (decide (n.domain = PERSON_DOMAIN ∨ n.domain = DT_DOMAIN)
        && (decide (n.state = STATE_HOME)).xor (decide (o.state = STATE_HOME)))
      || decide (attrGet n ATTR_LATITUDE ≠ attrGet o ATTR_LATITUDE)
      || decide (attrGet n ATTR_LONGITUDE ≠ attrGet o ATTR_LONGITUDE)

/-- What one invocation of `update_from_entity` broadcasts on the
entry's signal channel: `none` when the notification is ignored, and
`some (loc, tz)` when it recomputes and dispatches.  Each component is
computed only when that data is consumed (`loc_available` and a nonzero
consumer counter), and is the Python `None` (`Tri.noResult`) otherwise,
exactly as in the source. -/
def update_from_entity (cfg : HAConfig) (idx : TzIndex) (geo : Geocoder)
    (loc_available : Bool) (loc_users tz_users : ℤ)
    (old_state new_state : Option EState) :
    Option (Tri Location × Tri TZInfo) :=
  if update_condition new_state old_state then
    let entity_loc := if loc_available ∧ loc_users ≠ 0
      then get_loc geo new_state else Tri.noResult
    let entity_tz := if tz_users ≠ 0
      then get_tz cfg idx new_state else Tri.noResult
    Option.some (entity_loc, entity_tz)
  else
    Option.none

/-! ### Entry setup (`__init__.async_setup_entry`) -/

/-- The data of a configuration entry: the observed entity and the
optional static time-zone name (`CONF_TIME_ZONE`). -/
structure ConfigEntryData where
  entity_id : String
  time_zone : Option String
deriving DecidableEq, Repr

/-- The externally visible outcome of `async_setup_entry` on one entry:
the broadcasts dispatched during setup, whether a state-change listener
was installed on the source entity, and whether a first evaluation of
the current state was scheduled. -/
structure SetupResult where
  broadcasts : List (Tri Location × Tri TZInfo)
  trackerInstalled : Bool
  firstUpdateScheduled : Bool
deriving DecidableEq, Repr

/-- `__init__.async_setup_entry`, reduced to its dispatching and
listener-installing behaviour.  `async_get_time_zone` is the host's
name → zone resolver.  With a static `CONF_TIME_ZONE` the named zone is
resolved once and broadcast immediately with location `None`, and the
function returns before any state tracking is installed; otherwise a
state-change listener is installed and a first update is scheduled. -/
def async_setup_entry (async_get_time_zone : String → Option TZInfo)
    (entry : ConfigEntryData) : SetupResult :=
  match entry.time_zone with
  | Option.some tz_name =>
      { broadcasts := [(Tri.noResult, triOfOpt (async_get_time_zone tz_name))]
        trackerInstalled := false
        firstUpdateScheduled := false }
  | Option.none =>
      { broadcasts := []
        trackerInstalled := true
        firstUpdateScheduled := true }

/-! ### Consumer counters (`ETZEntity.async_added_to_hass`,
`ETZEntity.async_will_remove_from_hass`, `__init__.async_unload_entry`) -/

/-- The two per-entry consumer counters (`etzd.loc_users[entry_id]`,
`etzd.tz_users[entry_id]`), as integers since Python's are. -/
structure EntryCounters where
  loc : ℤ
  tz : ℤ
deriving DecidableEq, Repr

/-- The counter increments of `ETZEntity.async_added_to_hass` for an
entity whose declared sources contain `LOC` iff `loc_user` and `TZ` iff
`tz_user`. -/
def entity_added (loc_user tz_user : Bool) (c : EntryCounters) : EntryCounters :=
  { loc := if loc_user then c.loc + 1 else c.loc
    tz := if tz_user then c.tz + 1 else c.tz }

/-- The counter decrements of `ETZEntity.async_will_remove_from_hass`
for the same entity. -/
def entity_removed (loc_user tz_user : Bool) (c : EntryCounters) : EntryCounters :=
  { loc := if loc_user then c.loc - 1 else c.loc
    tz := if tz_user then c.tz - 1 else c.tz }

/-- `__init__.async_unload_entry`, reduced to the counter teardown: the
entry's counters are popped and `assert not loc_users`,
`assert not tz_uers` fail (AssertionError, modelled as `Except.error`)
unless both are zero; on success the platform-unload result is
returned. -/
def async_unload_entry (c : EntryCounters) (res : Bool) : Except Unit Bool :=
  if c.loc ≠ 0 then Except.error ()
  else if c.tz ≠ 0 then Except.error ()
  else Except.ok res

/-! ### Concrete fixtures used by counterexamples and witnesses -/

/-- Host configured with the US Eastern zone (offset −240 min at the
chosen instant). -/
def exCfg : HAConfig := { defaultTz := { name := "America/New_York", offsetMin := -240 } }

/-- A small concrete time-zone index: one polygon around latitude 40.4
resolving to US Central time (offset −300 min). -/
def exIdx : TzIndex :=
  { timezone_at := fun lat _ =>
      if lat = 202/5 then Option.some "America/Chicago" else Option.none
    get_time_zone := fun n =>
      if n = "America/Chicago"
      then Option.some { name := "America/Chicago", offsetMin := -300 }
      else Option.none }

/-- A concrete geocoder that knows one address. -/
def exGeo : Geocoder := fun _ _ =>
  Option.some { address := "1 Main St", countryCode := "us" }

/-- A person who is home and reports no coordinates. -/
def exHomeState : EState :=
  { entity_id := "person.bob", domain := "person", state := "home", attributes := [] }

/-- A sensor-domain state with no coordinate attributes. -/
def exNoCoordsState : EState :=
  { entity_id := "sensor.x", domain := "sensor", state := "5", attributes := [] }

/-- A device tracker away from home with coordinates. -/
def exAwayState : EState :=
  { entity_id := "device_tracker.car", domain := "device_tracker", state := "not_home",
    attributes := [(ATTR_LATITUDE, 202/5), (ATTR_LONGITUDE, -74)] }

/-- A zone state whose index lookup resolves to the host's default zone. -/
def exZoneHome : EState :=
  { entity_id := "zone.home_office", domain := "zone", state := "zoning",
    attributes := [(ATTR_LATITUDE, 41), (ATTR_LONGITUDE, -74)] }

/-- A zone state whose index lookup resolves to a zone one hour behind
the host's default zone. -/
def exZoneAway : EState :=
  { entity_id := "zone.chicago_office", domain := "zone", state := "zoning",
    attributes := [(ATTR_LATITUDE, 202/5), (ATTR_LONGITUDE, -88)] }

/-- A time-zone index for the zone fixtures: `exZoneHome`'s coordinates
resolve to the default (Eastern) zone, `exZoneAway`'s to Central. -/
def exZoneIdx : TzIndex :=
  { timezone_at := fun lat _ =>
      if lat = 202/5 then Option.some "America/Chicago"
      else if lat = 41 then Option.some "America/New_York"
      else Option.none
    get_time_zone := fun n =>
      if n = "America/Chicago"
      then Option.some { name := "America/Chicago", offsetMin := -300 }
      else if n = "America/New_York"
      then Option.some { name := "America/New_York", offsetMin := -240 }
      else Option.none }

/-- A time-zone index with no zones, used to exercise the cache layer
alone. -/
def trivIdx : TzIndex :=
  { timezone_at := fun _ _ => Option.none
    get_time_zone := fun _ => Option.none }

/-- 129 distinct rounded coordinate pairs — one more than the lru
cache's `maxsize` of 128 — looked up in order. -/
def evictKeys : List (ℚ × ℚ) :=
  [(0, 0), (1, 0), (2, 0), (3, 0), (4, 0), (5, 0), (6, 0), (7, 0), (8, 0),
   (9, 0), (10, 0), (11, 0), (12, 0), (13, 0), (14, 0), (15, 0), (16, 0),
   (17, 0), (18, 0), (19, 0), (20, 0), (21, 0), (22, 0), (23, 0), (24, 0),
   (25, 0), (26, 0), (27, 0), (28, 0), (29, 0), (30, 0), (31, 0), (32, 0),
   (33, 0), (34, 0), (35, 0), (36, 0), (37, 0), (38, 0), (39, 0), (40, 0),
   (41, 0), (42, 0), (43, 0), (44, 0), (45, 0), (46, 0), (47, 0), (48, 0),
   (49, 0), (50, 0), (51, 0), (52, 0), (53, 0), (54, 0), (55, 0), (56, 0),
   (57, 0), (58, 0), (59, 0), (60, 0), (61, 0), (62, 0), (63, 0), (64, 0),
   (65, 0), (66, 0), (67, 0), (68, 0), (69, 0), (70, 0), (71, 0), (72, 0),
   (73, 0), (74, 0), (75, 0), (76, 0), (77, 0), (78, 0), (79, 0), (80, 0),
   (81, 0), (82, 0), (83, 0), (84, 0), (85, 0), (86, 0), (87, 0), (88, 0),
   (89, 0), (90, 0), (91, 0), (92, 0), (93, 0), (94, 0), (95, 0), (96, 0),
   (97, 0), (98, 0), (99, 0), (100, 0), (101, 0), (102, 0), (103, 0),
   (104, 0), (105, 0), (106, 0), (107, 0), (108, 0), (109, 0), (110, 0),
   (111, 0), (112, 0), (113, 0), (114, 0), (115, 0), (116, 0), (117, 0),
   (118, 0), (119, 0), (120, 0), (121, 0), (122, 0), (123, 0), (124, 0),
   (125, 0), (126, 0), (127, 0), (128, 0)]

/-! ### C1 -/

/-- C1 counterexample: the claim "every entity state lacking one or both
coordinate attributes makes `get_tz` return unavailable, never a
concrete time zone" fails at a person state that is home with no
attributes at all: `get_tz` short-circuits on the home check and
returns the host's default zone, a concrete time zone. -/
theorem C1_home_state_counterexample :
    attrGet exHomeState ATTR_LATITUDE = Option.none ∧
    attrGet exHomeState ATTR_LONGITUDE = Option.none ∧
    get_tz exCfg exIdx (Option.some exHomeState) = Tri.value exCfg.defaultTz ∧
    get_tz exCfg exIdx (Option.some exHomeState) ≠ Tri.unavailable := by
  refine ⟨rfl, rfl, rfl, ?_⟩
  decide

/-- C1 (amended): for every entity state lacking one or both coordinate
attributes, `get_loc` returns unavailable, and `get_tz` returns
unavailable as well unless the state's domain is person/device_tracker
and its state equals the home value, in which case it returns the
host's configured default time zone. -/
theorem C1_missing_coords_unavailable (cfg : HAConfig) (idx : TzIndex)
    (geo : Geocoder) (st : EState)
    (hmiss : attrGet st ATTR_LATITUDE = Option.none ∨
      attrGet st ATTR_LONGITUDE = Option.none) :
    get_loc geo (Option.some st) = Tri.unavailable ∧
    (¬ ((st.domain = PERSON_DOMAIN ∨ st.domain = DT_DOMAIN) ∧ st.state = STATE_HOME) →
      get_tz cfg idx (Option.some st) = Tri.unavailable) ∧
    (((st.domain = PERSON_DOMAIN ∨ st.domain = DT_DOMAIN) ∧ st.state = STATE_HOME) →
      get_tz cfg idx (Option.some st) = Tri.value cfg.defaultTz) := by
  refine ⟨?_, ?_, ?_⟩
  · simp only [get_loc]
    rcases hmiss with h | h <;>
      rcases hlat : attrGet st ATTR_LATITUDE with _ | lat <;>
      rcases hlng : attrGet st ATTR_LONGITUDE with _ | lng <;>
      simp_all
  · intro hnot
    simp only [get_tz]
    rw [if_neg hnot]
    rcases hmiss with h | h <;>
      rcases hlat : attrGet st ATTR_LATITUDE with _ | lat <;>
      rcases hlng : attrGet st ATTR_LONGITUDE with _ | lng <;>
      simp_all
  · intro hhome
    simp only [get_tz]
    rw [if_pos hhome]

/-- Witness for `C1_missing_coords_unavailable` at a concrete state with
no attributes. -/
theorem C1_missing_coords_unavailable_witness :
    (attrGet exNoCoordsState ATTR_LATITUDE = Option.none ∨
      attrGet exNoCoordsState ATTR_LONGITUDE = Option.none) ∧
    get_loc exGeo (Option.some exNoCoordsState) = Tri.unavailable := by
  refine ⟨Or.inl rfl, ?_⟩
  exact (C1_missing_coords_unavailable exCfg exIdx exGeo exNoCoordsState
    (Or.inl rfl)).1

/-! ### C2 -/

/-- The wait interval never decreases across one rate-limit update. -/
theorem updateWait_le (wait : ℚ) (ra : Option ℚ) : wait ≤ updateWait wait ra := by
  unfold updateWait
  rcases ra with _ | t
  · exact le_refl wait
  · dsimp only
    split
    · split
      · exact le_of_lt (by assumption)
      · exact le_refl wait
    · exact le_refl wait

/-- A call that awaits the lock held by an ancestor frame never
completes, whatever the server would have answered. -/
theorem get_location_locked (rs : List NomResponse) (wait : ℚ) :
    get_location true wait rs = CallOutcome.deadlocked wait := by
  cases rs with
  | nil => rfl
  | cons r rest => rfl

/-- C2: the first rate-limited response is fatal.  The handler extends
the shared wait interval, but its recursive retry awaits the
serialization lock still held by its own caller — whose releasing
`limit_rate` task is scheduled only in the `finally` clause, after the
retry returns — so the call deadlocks: no retry request is ever issued
and no value is ever returned, contradicting the claimed
retry-until-success behaviour.  The second conjunct evaluates the
spec's own scenario (initial wait 1.5 s, `retry_after=5`, then a
success the call never sees). -/
theorem C2_rate_limited_deadlock :
    (∀ (wait : ℚ) (ra : Option ℚ) (rest : List NomResponse),
      get_location false wait (NomResponse.rateLimited ra :: rest) =
        CallOutcome.deadlocked (updateWait wait ra)) ∧
    get_location false INITIAL_WAIT
        [NomResponse.rateLimited (Option.some 5),
          NomResponse.ok { address := "1 Main St", countryCode := "us" }] =
      CallOutcome.deadlocked 5 := by
  have hgen : ∀ (wait : ℚ) (ra : Option ℚ) (rest : List NomResponse),
      get_location false wait (NomResponse.rateLimited ra :: rest) =
        CallOutcome.deadlocked (updateWait wait ra) := by
    intro wait ra rest
    show get_location true (updateWait wait ra) rest =
      CallOutcome.deadlocked (updateWait wait ra)
    exact get_location_locked rest (updateWait wait ra)
  refine ⟨hgen, ?_⟩
  rw [hgen]
  have : updateWait INITIAL_WAIT (Option.some 5) = 5 := by
    norm_num [updateWait, INITIAL_WAIT]
  rw [this]

/-! ### C5 -/

/-- The shared wait interval never decreases across a whole trace of
server responses, whatever the call's fate. -/
theorem get_location_wait_le (rs : List NomResponse) :
    ∀ (lockHeld : Bool) (wait : ℚ),
      wait ≤ (get_location lockHeld wait rs).wait := by
  induction rs with
  | nil =>
      intro lockHeld wait
      cases lockHeld <;> exact le_refl wait
  | cons r rest ih =>
      intro lockHeld wait
      cases lockHeld with
      | true => exact le_refl wait
      | false =>
          cases r with
          | ok loc => exact le_refl wait
          | rateLimited ra =>
              exact le_trans (updateWait_le wait ra) (ih true (updateWait wait ra))
          | geopyError => exact le_refl wait

/-- C5: a rate-limited response carrying a retry-after duration raises
the shared wait interval to the max of its previous value and the
duration, and no response of any kind ever decreases the wait interval,
neither in one step nor across a whole response trace. -/
theorem C5_wait_monotone_max (wait t : ℚ) (hw : 0 ≤ wait) (ht : 0 ≤ t) :
    updateWait wait (Option.some t) = max wait t ∧
    (∀ ra, wait ≤ updateWait wait ra) ∧
    (∀ (lockHeld : Bool) (rs : List NomResponse),
      wait ≤ (get_location lockHeld wait rs).wait) := by
  refine ⟨?_, updateWait_le wait,
    fun lockHeld rs => get_location_wait_le rs lockHeld wait⟩
  unfold updateWait
  dsimp only
  by_cases hne : t ≠ 0
  · rw [if_pos hne]
    by_cases hlt : wait < t
    · rw [if_pos hlt]
      exact (max_eq_right (le_of_lt hlt)).symm
    · rw [if_neg hlt]
      exact (max_eq_left (le_of_not_lt hlt)).symm
  · rw [if_neg hne]
    push_neg at hne
    subst hne
    exact (max_eq_left hw).symm

/-- Witness for `C5_wait_monotone_max`: from the initial wait of 1.5 s,
a retry-after of 5 raises the interval to 5. -/
theorem C5_wait_monotone_max_witness :
    updateWait INITIAL_WAIT (Option.some 5) = max INITIAL_WAIT 5 :=
  (C5_wait_monotone_max INITIAL_WAIT 5 (by norm_num [INITIAL_WAIT]) (by norm_num)).1

/-! ### C7 -/

/-- C7: attaching a derived entity and then detaching it restores both
per-entry consumer counters to their pre-attach values, whatever data
the entity consumes, and entry unload succeeds exactly when both
counters are zero — a nonzero counter trips the teardown assertion. -/
theorem C7_counters_balanced (l t : Bool) (c : EntryCounters) (res : Bool) :
    entity_removed l t (entity_added l t c) = c ∧
    (async_unload_entry c res = Except.ok res ↔ c.loc = 0 ∧ c.tz = 0) := by
  constructor
  · cases l <;> cases t <;> simp [entity_added, entity_removed]
  · unfold async_unload_entry
    constructor
    · intro h
      by_cases hl : c.loc = 0
      · by_cases htz : c.tz = 0
        · exact ⟨hl, htz⟩
        · simp [hl, htz] at h
      · simp [hl] at h
    · rintro ⟨hl, htz⟩
      simp [hl, htz]

/-! ### C9 -/

/-- C9: a configuration entry with a static time-zone name makes entry
setup resolve the name once and immediately broadcast the result with
location `None`, and it installs no source-entity state observation
(and schedules no first state evaluation). -/
theorem C9_static_time_zone_setup (resolve : String → Option TZInfo)
    (entry : ConfigEntryData) (tz_name : String)
    (hstatic : entry.time_zone = Option.some tz_name) :
    (async_setup_entry resolve entry).broadcasts =
      [(Tri.noResult, triOfOpt (resolve tz_name))] ∧
    (async_setup_entry resolve entry).trackerInstalled = false ∧
    (async_setup_entry resolve entry).firstUpdateScheduled = false := by
  unfold async_setup_entry
  rw [hstatic]
  exact ⟨rfl, rfl, rfl⟩

/-- Witness for `C9_static_time_zone_setup` at a concrete static entry. -/
theorem C9_static_time_zone_setup_witness :
    (async_setup_entry exZoneIdx.get_time_zone
        { entity_id := "person.bob", time_zone := Option.some "America/Chicago" }).broadcasts =
      [(Tri.noResult,
        Tri.value { name := "America/Chicago", offsetMin := -300 })] := by
  have h := C9_static_time_zone_setup exZoneIdx.get_time_zone
    { entity_id := "person.bob", time_zone := Option.some "America/Chicago" }
    "America/Chicago" rfl
  rw [h.1]
  rfl

/-! ### C10 -/

/-- C10: a person/device_tracker state equal to the home value makes
`get_tz` return the host's configured default time zone, independently
of the coordinate attributes — replacing the attribute map by anything,
including the empty one, leaves the result unchanged. -/
theorem C10_home_returns_default_tz (cfg : HAConfig) (idx : TzIndex)
    (st : EState) (hdom : st.domain = PERSON_DOMAIN ∨ st.domain = DT_DOMAIN)
    (hhome : st.state = STATE_HOME) :
    get_tz cfg idx (Option.some st) = Tri.value cfg.defaultTz ∧
    (∀ attrs : List (String × ℚ),
      get_tz cfg idx (Option.some { st with attributes := attrs }) =
        Tri.value cfg.defaultTz) := by
  constructor
  · simp only [get_tz]
    rw [if_pos ⟨hdom, hhome⟩]
  · intro attrs
    simp only [get_tz]
    rw [if_pos ⟨hdom, hhome⟩]

/-- Witness for `C10_home_returns_default_tz`: a person at home without
coordinates resolves to the default (Eastern) zone. -/
theorem C10_home_returns_default_tz_witness :
    get_tz exCfg exIdx (Option.some exHomeState) = Tri.value exCfg.defaultTz :=
  (C10_home_returns_default_tz exCfg exIdx exHomeState (Or.inl rfl) rfl).1

/-! ### C3 -/

/-- The spec's recompute condition, stated in the spec's own words:
"recompute is triggered if the previous or new state is missing, or if
the entity belongs to a presence category and its home/away boolean
flips, or if latitude or longitude differs between old and new state";
used to compare against `update_from_entity`'s behaviour. -/
def spec_recompute (old_state new_state : Option EState) : Prop :=
  old_state = Option.none ∨ new_state = Option.none ∨
  ∃ n o, new_state = Option.some n ∧ old_state = Option.some o ∧
    (((n.domain = PERSON_DOMAIN ∨ n.domain = DT_DOMAIN) ∧
        ¬ (n.state = STATE_HOME ↔ o.state = STATE_HOME)) ∨
      attrGet n ATTR_LATITUDE ≠ attrGet o ATTR_LATITUDE ∨
      attrGet n ATTR_LONGITUDE ≠ attrGet o ATTR_LONGITUDE)

/-- C3: on a state-change notification, `update_from_entity` broadcasts
on the entry's signal channel if and only if the spec's recompute
condition holds — missing old or new state, a presence-domain home-flag
flip, or a latitude/longitude difference; any other notification sends
no broadcast. -/
theorem C3_broadcast_iff_recompute (cfg : HAConfig) (idx : TzIndex)
    (geo : Geocoder) (la : Bool) (lu tu : ℤ)
    (old_state new_state : Option EState) :
    (update_from_entity cfg idx geo la lu tu old_state new_state).isSome ↔
      spec_recompute old_state new_state := by
  have hcond : (update_from_entity cfg idx geo la lu tu old_state new_state).isSome =
      update_condition new_state old_state := by
    unfold update_from_entity
    by_cases h : update_condition new_state old_state = true
    · rw [if_pos h, h]
      rfl
    · rw [if_neg (by simp [h]), Bool.eq_false_iff.mpr h]
      rfl
  rw [hcond]
  cases new_state with
  | none => simp [update_condition, spec_recompute]
  | some n =>
      cases old_state with
      | none => simp [update_condition, spec_recompute]
      | some o =>
          simp [update_condition, spec_recompute, Bool.xor_iff_ne]
          tauto

/-! ### C6 -/

/-- A key with a memoised binding is among the cached keys. -/
theorem mem_keysOf_of_find (cache : TzCache) (k : ℚ × ℚ) (r : Option TZInfo)
    (h : tzCacheFind cache k = Option.some r) : k ∈ keysOf cache := by
  induction cache with
  | nil => cases h
  | cons e rest ih =>
      obtain ⟨key, r'⟩ := e
      simp only [tzCacheFind] at h
      by_cases he : k = key
      · subst he
        exact List.mem_cons_self _ _
      · rw [if_neg he] at h
        exact List.mem_cons_of_mem _ (ih h)

/-- A cached key has a memoised binding. -/
theorem find_isSome_of_mem_keysOf (cache : TzCache) (k : ℚ × ℚ)
    (h : k ∈ keysOf cache) : ∃ r, tzCacheFind cache k = Option.some r := by
  induction cache with
  | nil => cases h
  | cons e rest ih =>
      obtain ⟨key, r'⟩ := e
      simp only [tzCacheFind]
      by_cases he : k = key
      · exact ⟨r', by rw [if_pos he]⟩
      · rw [if_neg he]
        rcases List.mem_cons.mp h with heq | hmem
        · exact absurd heq he
        · exact ih hmem

/-- Removing a key removes only that key's binding. -/
theorem find_removeKey_ne (cache : TzCache) (k kr : ℚ × ℚ) (hne : k ≠ kr) :
    tzCacheFind (removeKey cache kr) k = tzCacheFind cache k := by
  induction cache with
  | nil => rfl
  | cons e rest ih =>
      obtain ⟨key, r'⟩ := e
      simp only [removeKey]
      by_cases hkr : kr = key
      · rw [if_pos hkr]
        simp only [tzCacheFind]
        rw [if_neg (hkr ▸ hne)]
      · rw [if_neg hkr]
        simp only [tzCacheFind]
        by_cases hk : k = key
        · rw [if_pos hk, if_pos hk]
        · rw [if_neg hk, if_neg hk]
          exact ih

/-- Removing a key yields a sublist of the cache. -/
theorem removeKey_sublist (cache : TzCache) (k : ℚ × ℚ) :
    List.Sublist (removeKey cache k) cache := by
  induction cache with
  | nil => exact List.Sublist.refl []
  | cons e rest ih =>
      obtain ⟨key, r'⟩ := e
      simp only [removeKey]
      by_cases hk : k = key
      · rw [if_pos hk]
        exact List.sublist_cons_self _ _
      · rw [if_neg hk]
        exact List.Sublist.cons₂ _ ih

/-- With duplicate-free keys, a removed key is gone. -/
theorem not_mem_keysOf_removeKey (cache : TzCache) (k : ℚ × ℚ)
    (hnd : (keysOf cache).Nodup) : k ∉ keysOf (removeKey cache k) := by
  induction cache with
  | nil => exact fun h => (List.not_mem_nil k) h
  | cons e rest ih =>
      obtain ⟨key, r'⟩ := e
      have hnd' : (keysOf rest).Nodup := (List.nodup_cons.mp hnd).2
      simp only [removeKey]
      by_cases hk : k = key
      · rw [if_pos hk]
        subst hk
        exact (List.nodup_cons.mp hnd).1
      · rw [if_neg hk]
        intro hmem
        rcases List.mem_cons.mp hmem with heq | hmem'
        · exact hk heq
        · exact ih hnd' hmem'

/-- One bounded-lru lookup of a key drawn from a universe `U` of at
most `maxsize` keys, on a cache whose keys are duplicate-free, drawn
from `U`, and correctly memoised: the new cache keeps all these
invariants, never evicts (so every old binding survives), and memoises
the looked-up key with the uncached function's value. -/
theorem cachedTzLookup_small_step (idx : TzIndex) (U : List (ℚ × ℚ))
    (hU : U.length ≤ LRU_MAXSIZE) (cache : TzCache) (lat lng : ℚ)
    (hkey : (lat, lng) ∈ U) (hsub : keysOf cache ⊆ U)
    (hnd : (keysOf cache).Nodup) (hok : TzCacheOk idx cache) :
    keysOf (cachedTzLookup idx cache lat lng).2.1 ⊆ U ∧
    (keysOf (cachedTzLookup idx cache lat lng).2.1).Nodup ∧
    TzCacheOk idx (cachedTzLookup idx cache lat lng).2.1 ∧
    tzCacheFind (cachedTzLookup idx cache lat lng).2.1 (lat, lng) =
      Option.some (_get_tz_from_loc idx lat lng) ∧
    (∀ k r, tzCacheFind cache k = Option.some r →
      tzCacheFind (cachedTzLookup idx cache lat lng).2.1 k = Option.some r) := by
  cases hfind : tzCacheFind cache (lat, lng) with
  | some r =>
      have heq : cachedTzLookup idx cache lat lng =
          (r, ((lat, lng), r) :: removeKey cache (lat, lng), false) := by
        unfold cachedTzLookup
        rw [hfind]
      rw [heq]
      have hr : r = _get_tz_from_loc idx lat lng := hok (lat, lng) r hfind
      have hnd' : (keysOf (removeKey cache (lat, lng))).Nodup :=
        hnd.sublist (List.Sublist.map _ (removeKey_sublist cache (lat, lng)))
      refine ⟨?_, ?_, ?_, ?_, ?_⟩
      · intro x hx
        rcases List.mem_cons.mp hx with heq | hmem
        · exact heq ▸ hkey
        · exact hsub (List.Sublist.map _ (removeKey_sublist cache (lat, lng))
            |>.subset hmem)
      · exact List.nodup_cons.mpr
          ⟨not_mem_keysOf_removeKey cache (lat, lng) hnd, hnd'⟩
      · intro k r' hk
        simp only [tzCacheFind] at hk
        by_cases he : k = (lat, lng)
        · rw [if_pos he] at hk
          injection hk with hk
          subst he
          rw [← hk, hr]
        · rw [if_neg he] at hk
          rw [find_removeKey_ne cache k (lat, lng) he] at hk
          exact hok k r' hk
      · simp [tzCacheFind, hr]
      · intro k r' hk
        simp only [tzCacheFind]
        by_cases he : k = (lat, lng)
        · rw [if_pos he]
          subst he
          rw [hk] at hfind
          injection hfind with hfind
          rw [hfind]
        · rw [if_neg he, find_removeKey_ne cache k (lat, lng) he]
          exact hk
  | none =>
      have hnotmem : (lat, lng) ∉ keysOf cache := by
        intro hmem
        obtain ⟨r, hr⟩ := find_isSome_of_mem_keysOf cache (lat, lng) hmem
        rw [hr] at hfind
        cases hfind
      have hndgrown :
          (keysOf (((lat, lng), _get_tz_from_loc idx lat lng) :: cache)).Nodup :=
        List.nodup_cons.mpr ⟨hnotmem, hnd⟩
      have hsubgrown :
          keysOf (((lat, lng), _get_tz_from_loc idx lat lng) :: cache) ⊆ U := by
        intro x hx
        rcases List.mem_cons.mp hx with heq | hmem
        · exact heq ▸ hkey
        · exact hsub hmem
      have hlen : (((lat, lng), _get_tz_from_loc idx lat lng) :: cache).length ≤
          LRU_MAXSIZE := by
        have h1 := (hndgrown.subperm hsubgrown).length_le
        rw [keysOf, List.length_map] at h1
        exact le_trans h1 hU
      have hnoevict :
          ¬ ((((lat, lng), _get_tz_from_loc idx lat lng) :: cache).length >
            LRU_MAXSIZE) := not_lt.mpr hlen
      have heq : cachedTzLookup idx cache lat lng =
          (_get_tz_from_loc idx lat lng,
            ((lat, lng), _get_tz_from_loc idx lat lng) :: cache, true) := by
        unfold cachedTzLookup
        rw [hfind]
        simp only [if_neg hnoevict]
      rw [heq]
      refine ⟨hsubgrown, hndgrown, ?_, ?_, ?_⟩
      · intro k r' hk
        simp only [tzCacheFind] at hk
        by_cases he : k = (lat, lng)
        · rw [if_pos he] at hk
          injection hk with hk
          subst he
          exact hk.symm
        · rw [if_neg he] at hk
          exact hok k r' hk
      · simp [tzCacheFind]
      · intro k r' hk
        have he : k ≠ (lat, lng) := by
          intro heq2
          rw [heq2, hfind] at hk
          cases hk
        simp only [tzCacheFind, if_neg he]
        exact hk

/-- A run of bounded-lru lookups all drawn from a universe of at most
`maxsize` keys never evicts: the invariants are maintained, old
bindings survive, and afterwards every looked-up key is memoised with
the uncached function's value. -/
theorem runTzLookups_small (idx : TzIndex) (U : List (ℚ × ℚ))
    (hU : U.length ≤ LRU_MAXSIZE) (reqs : List (ℚ × ℚ)) :
    ∀ cache : TzCache, (∀ k ∈ reqs, k ∈ U) → keysOf cache ⊆ U →
      (keysOf cache).Nodup → TzCacheOk idx cache →
      keysOf (runTzLookups idx cache reqs) ⊆ U ∧
      (keysOf (runTzLookups idx cache reqs)).Nodup ∧
      TzCacheOk idx (runTzLookups idx cache reqs) ∧
      (∀ k ∈ reqs, tzCacheFind (runTzLookups idx cache reqs) k =
        Option.some (_get_tz_from_loc idx k.1 k.2)) ∧
      (∀ k r, tzCacheFind cache k = Option.some r →
        tzCacheFind (runTzLookups idx cache reqs) k = Option.some r) := by
  induction reqs with
  | nil =>
      intro cache _ hsub hnd hok
      exact ⟨hsub, hnd, hok, fun k hk => absurd hk (List.not_mem_nil k),
        fun _ _ h => h⟩
  | cons q rest ih =>
      intro cache hreq hsub hnd hok
      obtain ⟨lat, lng⟩ := q
      obtain ⟨hsub', hnd', hok', hself, hkeep⟩ :=
        cachedTzLookup_small_step idx U hU cache lat lng
          (hreq (lat, lng) (List.mem_cons_self _ _)) hsub hnd hok
      obtain ⟨rsub, rnd, rok, rall, rkeep⟩ :=
        ih (cachedTzLookup idx cache lat lng).2.1
          (fun k hk => hreq k (List.mem_cons_of_mem _ hk)) hsub' hnd' hok'
      refine ⟨rsub, rnd, rok, ?_, fun k r h => rkeep k r (hkeep k r h)⟩
      intro k hk
      rcases List.mem_cons.mp hk with heq | hmem
      · subst heq
        exact rkeep _ _ hself
      · exact rall k hmem

set_option maxRecDepth 100000 in
/-- C6 counterexample: the bare `@lru_cache` bound of 128 makes the
claimed never-re-query behaviour false.  Looking up the 129 distinct
coordinate pairs of `evictKeys` in order evicts the first pair, so a
repeat lookup of that previously looked-up pair queries the underlying
index a second time (query flag `true`). -/
theorem C6_eviction_counterexample :
    (0, 0) ∈ evictKeys ∧
    (cachedTzLookup trivIdx (runTzLookups trivIdx [] evictKeys) 0 0).2.2 = true :=
  ⟨List.mem_cons_self _ _, by decide⟩

/-- C6 (amended): the time-zone index lookup is cached process-wide in
an LRU cache bounded at 128 entries keyed by the rounded coordinate
pair; as long as a sequence of lookups touches at most 128 distinct
rounded pairs (so nothing is evicted), looking up any previously
looked-up pair again returns the memoised value — which is exactly what
the uncached index lookup returns — without a second query of the
underlying index. -/
theorem C6_bounded_tz_cache (idx : TzIndex) (reqs : List (ℚ × ℚ))
    (lat lng : ℚ) (hsmall : reqs.dedup.length ≤ LRU_MAXSIZE)
    (hmem : (lat, lng) ∈ reqs) :
    (cachedTzLookup idx (runTzLookups idx [] reqs) lat lng).1 =
      _get_tz_from_loc idx lat lng ∧
    (cachedTzLookup idx (runTzLookups idx [] reqs) lat lng).2.2 = false := by
  obtain ⟨-, -, -, hall, -⟩ :=
    runTzLookups_small idx reqs.dedup hsmall reqs []
      (fun k hk => List.mem_dedup.mpr hk)
      (fun x hx => absurd hx (List.not_mem_nil x))
      List.nodup_nil
      (fun k r h => by cases h)
  have hf := hall (lat, lng) hmem
  have heq : cachedTzLookup idx (runTzLookups idx [] reqs) lat lng =
      (_get_tz_from_loc idx lat lng,
        ((lat, lng), _get_tz_from_loc idx lat lng) ::
          removeKey (runTzLookups idx [] reqs) (lat, lng), false) := by
    unfold cachedTzLookup
    rw [hf]
  rw [heq]
  exact ⟨rfl, rfl⟩

/-- Witness for `C6_bounded_tz_cache`: a single pair looked up once
from the empty cache is found again without re-querying the index. -/
theorem C6_bounded_tz_cache_witness :
    (cachedTzLookup exIdx (runTzLookups exIdx [] [(41, -74)]) 41 (-74)).2.2 =
      false :=
  (C6_bounded_tz_cache exIdx [(41, -74)] 41 (-74) (by decide)
    (List.mem_singleton_self _)).2

/-! ### C8 -/

/-- C8: after any recompute (an invocation that is not skipped for
carrying no event data), the zone list contains a zone-domain state's
identifier exactly when its derived time zone is effectively different
from the host's default zone; a zone resolving to the default zone is
excluded, and one resolving to a zone whose offset differs by at least
an hour is included.  Distinct states carry distinct identifiers, as
the host's state machine guarantees. -/
theorem C8_zone_set_exact (cfg : HAConfig) (idx : TzIndex)
    (states : List EState) (zones : List String) (event? : Option Bool)
    (st : EState)
    (hev : event? ≠ Option.some false)
    (hnodup : (states.map EState.entity_id).Nodup)
    (hmem : st ∈ states) (hzone : st.domain = ZONE_DOMAIN) :
    (st.entity_id ∈ update_zones cfg idx states zones event? ↔
      not_ha_tz cfg.defaultTz (get_tz cfg idx (Option.some st)) = true) ∧
    (get_tz cfg idx (Option.some st) = Tri.value cfg.defaultTz →
      st.entity_id ∉ update_zones cfg idx states zones event?) ∧
    (∀ tz : TZInfo, get_tz cfg idx (Option.some st) = Tri.value tz →
      60 ≤ |tz.offsetMin - cfg.defaultTz.offsetMin| →
      st.entity_id ∈ update_zones cfg idx states zones event?) := by
  have hzs : update_zones cfg idx states zones event? =
      ((states.filter (fun s => s.domain = ZONE_DOMAIN)).filter
        (fun s => not_ha_tz cfg.defaultTz (get_tz cfg idx (Option.some s)))).map
        EState.entity_id := by
    unfold update_zones
    cases event? with
    | none => rfl
    | some b =>
        cases b with
        | false => exact absurd rfl hev
        | true => rfl
  have hiff : st.entity_id ∈ update_zones cfg idx states zones event? ↔
      not_ha_tz cfg.defaultTz (get_tz cfg idx (Option.some st)) = true := by
    rw [hzs]
    constructor
    · intro hin
      obtain ⟨s', hs', hid⟩ := List.mem_map.mp hin
      obtain ⟨hs'1, hcond⟩ := List.mem_filter.mp hs'
      obtain ⟨hs'2, _⟩ := List.mem_filter.mp hs'1
      have : s' = st := List.inj_on_of_nodup_map hnodup hs'2 hmem hid
      rw [← this]
      exact hcond
    · intro hcond
      refine List.mem_map.mpr ⟨st, List.mem_filter.mpr ⟨List.mem_filter.mpr ⟨hmem, ?_⟩, hcond⟩, rfl⟩
      simp [hzone]
  refine ⟨hiff, ?_, ?_⟩
  · intro hdef hin
    have := hiff.mp hin
    rw [hdef] at this
    simp [not_ha_tz] at this
  · intro tz htz hoff
    refine hiff.mpr ?_
    rw [htz]
    simp only [not_ha_tz, decide_eq_true_eq]
    intro heq
    rw [heq, sub_self, abs_zero] at hoff
    norm_num at hoff

/-- The away example zone's coordinates resolve to Central time. -/
theorem exZoneAway_tz :
    get_tz exCfg exZoneIdx (Option.some exZoneAway) =
      Tri.value { name := "America/Chicago", offsetMin := -300 } := by
  have hlat : attrGet exZoneAway ATTR_LATITUDE = Option.some (202/5) := rfl
  have hlng : attrGet exZoneAway ATTR_LONGITUDE = Option.some (-88) := rfl
  have hdom : ¬ ((exZoneAway.domain = PERSON_DOMAIN ∨ exZoneAway.domain = DT_DOMAIN) ∧
      exZoneAway.state = STATE_HOME) := by decide
  have h4a : round4 (202/5 : ℚ) = 202/5 := by norm_num [round4, roundHalfEven]
  have h4b : round4 (-88 : ℚ) = -88 := by norm_num [round4, roundHalfEven]
  simp only [get_tz, if_neg hdom, hlat, hlng, h4a, h4b]
  norm_num [_get_tz_from_loc, exZoneIdx, triOfOpt]

/-- Witness for `C8_zone_set_exact`: the example zone resolving to
Central time (an hour behind the Eastern default) is in the recomputed
zone list. -/
theorem C8_zone_set_exact_witness :
    exZoneAway.entity_id ∈
      update_zones exCfg exZoneIdx [exZoneHome, exZoneAway] [] Option.none := by
  refine (C8_zone_set_exact exCfg exZoneIdx [exZoneHome, exZoneAway] []
    Option.none exZoneAway (by simp) (by decide)
    (List.mem_cons_of_mem _ (List.mem_cons_self _ _)) rfl).2.2
    { name := "America/Chicago", offsetMin := -300 } exZoneAway_tz
    (by norm_num [exCfg])

end EntityTZ
